import Mathlib

/-!
Verification of the Study-Session Audio & Synthesis Pipeline of the
opic-flow_v2 repository (src/components/Dashboard.tsx, src/App.tsx).

Text is modelled as `List Char`.  The functions below are shallow
embeddings of the corresponding TypeScript functions; each definition
names the source symbol it embeds.
-/

/-- Text: JS strings are modelled as lists of characters. -/
abbrev Str := List Char

/-- ASCII part of JavaScript's `\s` character class (space, tab, LF, VT, FF, CR).
The delimiter and markup characters handled by this code are all ASCII, so the
non-ASCII space code points of `\s` never interact with the proved claims. -/
def isJsWs (c : Char) : Bool :=
  c = ' ' || c = '\t' || c = '\n' || c = Char.ofNat 11 || c = Char.ofNat 12 || c = '\r'

/-- Characters removed by `cleanAiText`'s first two regex replaces:
`/[*_`#]/g` and `/\[|\]/g` (Dashboard.tsx line 51). -/
def isMarkupChar (c : Char) : Bool :=
  c = '*' || c = '_' || c = Char.ofNat 96 || c = '#' || c = '[' || c = ']'

/-- `.replace(/\s+/g, " ")`: every maximal run of whitespace becomes a single
space (Dashboard.tsx line 51). -/
def collapseWs : Str → Str
  | [] => []
  | [c] => if isJsWs c then [' '] else [c]
  | c :: d :: rest =>
    if isJsWs c && isJsWs d then collapseWs (d :: rest)
    else (if isJsWs c then ' ' else c) :: collapseWs (d :: rest)

/-- `String.prototype.trim()`: drop leading and trailing whitespace. -/
def trimWs (s : Str) : Str :=
  ((s.dropWhile isJsWs).reverse.dropWhile isJsWs).reverse

/-- `cleanAiText` (Dashboard.tsx lines 50-52): strip markup characters,
collapse whitespace runs to one space, trim.  The source applies the two
character-removing replaces first, then the whitespace collapse, then trim;
the two removals together are a single character filter. -/
def cleanAiText (s : Str) : Str :=
  trimWs (collapseWs (s.filter (fun c => !(isMarkupChar c))))

/-- `PART_DELIMITER = " [PART] "` (Dashboard.tsx line 28). -/
def partDelimiter : Str := " [PART] ".toList

/-- Whether `sep` is a prefix of `s` (character-wise), as used by
`String.prototype.split`'s left-to-right scan. -/
def startsWithSub : Str → Str → Bool
  | [], _ => true
  | _ :: _, [] => false
  | a :: as, b :: bs => a = b && startsWithSub as bs

/-- JS `haystack.includes(needle)` (substring containment). -/
def containsSub (needle : Str) : Str → Bool
  | [] => startsWithSub needle []
  | c :: rest => startsWithSub needle (c :: rest) || containsSub needle rest

/-- JS `s.split(sep)` for a non-empty string separator: scan left to right,
cut at each (non-overlapping) occurrence of `sep`.  (The `sep = []` case of
JS differs, but the only separator used is `PART_DELIMITER`, non-empty.) -/
def splitOnSub (sep : Str) (s : Str) : List Str :=
  match s with
  | [] => [[]]
  | c :: rest =>
    if sep ≠ [] ∧ startsWithSub sep (c :: rest) = true then
      [] :: splitOnSub sep (rest.drop (sep.length - 1))
    else
      match splitOnSub sep rest with
      | [] => [[c]]
      | h :: t => (c :: h) :: t
termination_by s.length
decreasing_by
  · simp only [List.length_cons]
    have := List.length_drop (sep.length - 1) rest
    omega
  · simp [List.length_cons]

/-- `(text || "").split(PART_DELIMITER).join(" ").trim()`
(Dashboard.tsx line 379 and line 648): the flattened cache-key / spoken text. -/
def flattenForTts (t : Str) : Str :=
  trimWs (List.intercalate [' '] (splitOnSub partDelimiter t))

/-- `correction` field construction (Dashboard.tsx line 605): the three
cleaned parts joined with the reserved delimiter. -/
def mkCorrectionField (iIntro iBody iConcl : Str) : Str :=
  cleanAiText iIntro ++ partDelimiter ++ cleanAiText iBody ++ partDelimiter ++ cleanAiText iConcl

/-- `restudyLog`'s recovery of the three parts from the stored field
(Dashboard.tsx lines 730-733): split only when the delimiter occurs. -/
def restudyCorrectionParts (corr : Str) : Option (Str × Str × Str) :=
  if containsSub partDelimiter corr = true then
    let parts := splitOnSub partDelimiter corr
    some (parts.getD 0 [], parts.getD 1 [], parts.getD 2 [])
  else none

/-!
## SpeechCache (`localTtsCache`, Dashboard.tsx line 138)

A `Map<string, Uint8Array>`: an association list with first-match lookup;
`Map.set` prepends, which is observationally the same as replacing in place
because lookup always sees the newest binding.  Audio byte arrays are
modelled as `Str`.
-/

/-- `Map.get` / `Map.has`: first matching key wins. -/
def lookupA (k : Str) : List (Str × Str) → Option Str
  | [] => none
  | (k', v) :: rest => if k' = k then some v else lookupA k rest

/-- `Map.set`. -/
def insertA (k v : Str) (m : List (Str × Str)) : List (Str × Str) :=
  (k, v) :: m

/-!
## Playback controller state (Dashboard.tsx lines 138-146, 361-468)
-/

/-- The two values of `ttsState.status` (Dashboard.tsx line 139). -/
inductive TtsStatus where
  | playing
  | loading
deriving DecidableEq, Repr

/-- Process-wide mutable audio state: `localTtsCache`, `ttsState`,
`activeAudioSource` (whether a WebAudio buffer source is started),
`window.speechSynthesis` (whether a native utterance is sounding), and the
synthesis in-flight marker `syncingCorrectionSessionId`. -/
structure PlayState where
  cache : List (Str × Str)
  ttsState : Option (Str × TtsStatus)
  activeSource : Bool
  nativeSpeaking : Bool
  marker : Option Str
deriving DecidableEq, Repr

/-- `StudyLogEntry` (types.ts lines 27-41). -/
structure StudyLogEntry where
  sessionId : Str
  date : Str
  unit : Str
  type : Str
  question : Str
  keywords : Str
  rawAnswer : Str
  rawAudioLink : Str
  grade : Str
  correction : Str
  translatedAnswer : Str
  feedback : Str
  audioLink : Str
deriving DecidableEq, Repr

/-- Externally observable calls made by the pipeline. -/
inductive Event where
  | synthCall (text : Str)          -- speech-synthesis backend request
  | fetchAsset (fileId : Str)       -- Drive fetch of an audio asset
  | nativeSpeak (text : Str)        -- on-device speechSynthesis utterance
  | pollStart                       -- bounded polling wait began
  | errorLogged (ctx : Str)         -- console.error
  | uploadRawCall                   -- upload of the raw user recording
  | gradeCall                       -- grading/generation backend request
  | saveLog (row : StudyLogEntry)   -- saveStudyLog
  | updateUnit (status grade lastPractice : Str)
  | updateMaster
  | uploadModelCall                 -- upload of the synthesized model audio
  | updateLog (row : StudyLogEntry) -- updateStudyLog
  | deleteFile (url : Str)          -- deleteFileFromDrive
  | deleteRow (sessionId : Str)     -- deleteStudyLogBySessionId
deriving DecidableEq, Repr

/-- `stopAllAudio` (Dashboard.tsx lines 361-368): stop the WebAudio source,
cancel native speech, clear the status. -/
def stopAllAudio (s : PlayState) : PlayState :=
  { s with activeSource := false, nativeSpeaking := false, ttsState := none }

/-- `playNativeTts` (Dashboard.tsx lines 462-468): cancel any native
utterance and speak — the WebAudio source and `ttsState` are left untouched. -/
def playNativeTts (s : PlayState) : PlayState :=
  { s with nativeSpeaking := true }

/-- Oracle outcomes of the network/decode suspension points inside one
`playHighQualityAudio` invocation. -/
structure PlayEnv where
  /-- `extractFileId` (Dashboard.tsx lines 62-65), abstracted: the two URL
  regexes are modelled as an arbitrary parser from URL to file id. -/
  extractFid : Str → Option Str
  /-- Result of `fetch` + `arrayBuffer` on the Drive asset; `none` means the
  network request rejected. -/
  fetchResult : Option Str
  /-- Whether `decodeAudioData` succeeds on the fetched container bytes. -/
  decodeOk : Bool
  /-- Result of the synthesis backend call; `none` means it threw or the
  payload was malformed. -/
  synthResult : Option Str

def qId : Str := "q".toList
def correctionId : Str := "correction".toList
def modelLit : Str := "model".toList
def alModelLit : Str := "AL_MODEL".toList

/-- `ttsState?.id === id` (Dashboard.tsx line 376). -/
def ttsIdIs (tts : Option (Str × TtsStatus)) (id : Str) : Bool :=
  match tts with
  | some st => st.1 = id
  | none => false

/-- `playHighQualityAudio` (Dashboard.tsx lines 375-460), run-to-completion
semantics (no interleaving; the interleaved small-step model is `stepPlay`
below).  Returns the final state and the external calls made. -/
def playHQA (env : PlayEnv) (text id : Str) (driveUrl : Option Str)
    (s : PlayState) : PlayState × List Event :=
  -- line 376: toggle-to-stop
  if ttsIdIs s.ttsState id then
    (stopAllAudio s, [])
  else
    -- line 377
    let s := stopAllAudio s
    -- line 379
    let cleanText := flattenForTts text
    -- lines 381-390: spoken question via the on-device synthesizer
    if id = qId ∧ cleanText ≠ [] then
      ({ s with ttsState := some (id, .playing), nativeSpeaking := true },
       [.nativeSpeak cleanText])
    else
      -- lines 395-405: cache hit
      if cleanText ≠ [] ∧ (lookupA cleanText s.cache).isSome then
        ({ s with ttsState := some (id, .playing), activeSource := true }, [])
      else
        -- lines 407-416: a SynthesisJob is in flight and no asset ref given
        if id = correctionId ∧ s.marker.isSome ∧ driveUrl = none then
          ({ s with ttsState := some (id, .loading) }, [.pollStart])
        else
          -- line 418
          let s := { s with ttsState := some (id, .loading) }
          -- line 421: fileId
          match driveUrl, driveUrl.bind env.extractFid with
          | some u, some fid =>
            -- lines 422-433: fetch the remote asset
            match env.fetchResult with
            | none => ({ s with ttsState := none }, [.fetchAsset fid, .errorLogged "TTS".toList])
            | some bytes =>
              if containsSub modelLit id ∨ id = correctionId ∨ containsSub alModelLit u then
                -- model-answer asset: raw PCM decode, cache the bytes
                let cache' := if cleanText ≠ [] then insertA cleanText bytes s.cache else s.cache
                ({ s with cache := cache', ttsState := some (id, .playing), activeSource := true },
                 [.fetchAsset fid])
              else
                -- user-raw asset: general container decode, no cache write
                if env.decodeOk then
                  ({ s with ttsState := some (id, .playing), activeSource := true },
                   [.fetchAsset fid])
                else
                  ({ s with ttsState := none }, [.fetchAsset fid, .errorLogged "TTS".toList])
          | _, _ =>
            -- lines 434-447: on-demand synthesis
            if cleanText = [] then
              -- line 435: throw "Text is empty", caught at line 456
              ({ s with ttsState := none }, [.errorLogged "TTS".toList])
            else
              match env.synthResult with
              | none => ({ s with ttsState := none }, [.synthCall cleanText, .errorLogged "TTS".toList])
              | some pcm =>
                let cache' := if cleanText ≠ [] then insertA cleanText pcm s.cache else s.cache
                ({ s with cache := cache', ttsState := some (id, .playing), activeSource := true },
                 [.synthCall cleanText])

/-- The audio-touching operations a user interaction can invoke. -/
inductive SysOp where
  | play (text id : Str) (driveUrl : Option Str)
  | nativeTts (text : Str)
  | stopAll
deriving Repr

def applyOp (env : PlayEnv) (s : PlayState) : SysOp → PlayState
  | .play text id driveUrl => (playHQA env text id driveUrl s).1
  | .nativeTts _ => playNativeTts s
  | .stopAll => stopAllAudio s

def runOps (env : PlayEnv) : List SysOp → PlayState → PlayState
  | [], s => s
  | op :: rest, s => runOps env rest (applyOp env s op)

/-- At most one audio source is audibly playing. -/
def atMostOnePlaying (s : PlayState) : Prop :=
  ¬(s.activeSource = true ∧ s.nativeSpeaking = true)

/-- The all-idle initial state. -/
def initPlayState : PlayState :=
  { cache := [], ttsState := none, activeSource := false,
    nativeSpeaking := false, marker := none }

/-!
## RecordingController (Dashboard.tsx lines 470-532)
-/

/-- The transient recording session: the accumulated chunks (`chunks` array in
`startRecording`), the cancellation flag (`isCancellingRef`) and whether the
device stream / AudioContext are still open. -/
structure RecSession where
  chunks : List Str
  cancelling : Bool
  streamOpen : Bool
deriving DecidableEq, Repr

/-- What `recorder.onstop` (Dashboard.tsx lines 490-502) produces: the updated
session, the finalized clip (if any) handed to `analyzeAudio`, and whether
`analyzeAudio` was invoked. -/
def recorderOnStop (sess : RecSession) : RecSession × Option Str × Bool :=
  if sess.cancelling then
    -- lines 491-495: discard, release the stream, close the context, return
    ({ sess with cancelling := false, streamOpen := false }, none, false)
  else
    -- lines 497-501: concatenate the chunks, release, hand to analyzeAudio
    let finalBlob := sess.chunks.flatten
    ({ sess with streamOpen := false }, some finalBlob, true)

/-- `cancelRecording` (Dashboard.tsx lines 526-532): mark the session
cancelled, then stop the recorder (which fires `onstop`). -/
def cancelRecording (sess : RecSession) : RecSession :=
  { sess with cancelling := true }

/-!
## Blob store boundary (src/App.tsx lines 415-438)
-/

/-- Outcome of one Drive HTTP interaction: the fetch rejected, the response
was not ok, or it succeeded with the given `webViewLink` / `id` fields. -/
inductive DriveResp where
  | netErr
  | httpErr
  | ok (webViewLink fileId : Str)
deriving DecidableEq, Repr

/-- `uploadAudioToDrive` (App.tsx lines 415-428): `null` on a non-ok response,
otherwise `data.webViewLink || "https://drive.google.com/file/d/" + id + "/view"`;
a rejected fetch propagates as an exception. -/
def uploadAudioToDrive : DriveResp → Except Unit (Option Str)
  | .netErr => .error ()
  | .httpErr => .ok none
  | .ok link fid =>
    .ok (some (if link ≠ [] then link
               else "https://drive.google.com/file/d/".toList ++ fid ++ "/view".toList))

/-!
## SessionOrchestrator and SynthesisJob (Dashboard.tsx lines 534-676)
-/

/-- `UnitProgress` (types.ts lines 16-24); only the fields the pipeline
writes are carried. -/
structure UnitProgressRow where
  fullId : Str
  topic : Str
  essence : Str
  status : Str
  grade : Str
  lastPractice : Str
deriving DecidableEq, Repr

/-- Orchestrator-level mutable state: the busy flag `isAnalyzing`, the shared
audio state (cache + in-flight marker), the unit history list and the unit
progress list. -/
structure OrchState where
  isAnalyzing : Bool
  play : PlayState
  unitHistory : List StudyLogEntry
  units : List UnitProgressRow
deriving DecidableEq, Repr

/-- Oracle outcomes for one `processOnlyModelMedia` run. -/
structure JobEnv where
  /-- Result of the TTS backend call; `none` means it threw or was malformed. -/
  synthResult : Option Str
  /-- Drive response for the model-audio upload. -/
  modelUpload : DriveResp
deriving Repr

/-- `processOnlyModelMedia` (Dashboard.tsx lines 645-676): claim the in-flight
marker, synthesize the flattened correction, cache it, upload it, update the
persisted log row; release the marker in `finally`. -/
def processOnlyModelMedia (env : JobEnv) (log : StudyLogEntry) (s : OrchState) :
    OrchState × List Event :=
  -- line 647: claim the single-slot marker
  let s := { s with play := { s.play with marker := some log.sessionId } }
  -- line 648
  let plainCorrection := flattenForTts log.correction
  -- line 649: early return on empty text (finally still runs)
  if plainCorrection = [] then
    ({ s with play := { s.play with marker := none } }, [])
  else
    match env.synthResult with
    | none =>
      -- backend threw: catch at line 671 logs, finally releases the marker
      ({ s with play := { s.play with marker := none } },
       [.synthCall plainCorrection, .errorLogged "Model media sync fail".toList])
    | some ttsData =>
      -- line 662: populate the cache
      let s := { s with play := { s.play with cache := insertA plainCorrection ttsData s.play.cache } }
      -- line 664: upload the synthesized audio
      match uploadAudioToDrive env.modelUpload with
      | .error _ =>
        ({ s with play := { s.play with marker := none } },
         [.synthCall plainCorrection, .uploadModelCall,
          .errorLogged "Model media sync fail".toList])
      | .ok urlOpt =>
        -- lines 666-670: update the persisted row and the in-memory history
        let updatedLog := { log with audioLink := urlOpt.getD [] }
        let newHistory := s.unitHistory.map
          (fun (h : StudyLogEntry) => if h.sessionId = log.sessionId then updatedLog else h)
        let s := { s with unitHistory := newHistory }
        ({ s with play := { s.play with marker := none } },
         [.synthCall plainCorrection, .uploadModelCall, .updateLog updatedLog])

/-- The parsed JSON fields of a successful grading response
(Dashboard.tsx line 593). -/
structure GradeData where
  transcript : Str
  cIntro : Str
  cBody : Str
  cConcl : Str
  tIntro : Str
  tBody : Str
  tConcl : Str
  feedback : Str
  predictedLevel : Str
deriving Repr

/-- Oracle outcomes and request context for one `analyzeAudio` run. -/
structure AnalyzeEnv where
  sessionId : Str
  practiceTime : Str
  unitFullId : Str
  unitTopic : Str
  unitEssence : Str
  qType : Str
  question : Str
  keywords : Str
  /-- Drive response for the raw-recording upload. -/
  rawUpload : DriveResp
  /-- Parsed grading response; `none` means the call threw or the JSON was
  malformed. -/
  grading : Option GradeData
  /-- `saveStudyLog` result: `none` if its fetch rejected, otherwise `res.ok`
  (the boolean is not inspected by the caller). -/
  saveResult : Option Bool
  /-- Whether `updateUnitStatus`'s fetch rejected. -/
  updateUnitThrows : Bool
  job : JobEnv
deriving Repr

/-- The StudySession constructed at Dashboard.tsx lines 603-632: cleaned
transcript/feedback, delimiter-joined correction and translation, predicted
level with the `"IM"` fallback, the raw-audio link, and an empty model-audio
link. -/
def buildInitialLog (env : AnalyzeEnv) (g : GradeData) (rawUrlOpt : Option Str) :
    StudyLogEntry :=
  { sessionId := env.sessionId
    date := env.practiceTime
    unit := "[".toList ++ env.unitFullId ++ "] ".toList ++ env.unitTopic
             ++ " - ".toList ++ env.unitEssence
    type := env.qType
    question := env.question
    keywords := env.keywords
    rawAnswer := cleanAiText g.transcript
    rawAudioLink := rawUrlOpt.getD []
    grade := if g.predictedLevel ≠ [] then g.predictedLevel else "IM".toList
    correction := mkCorrectionField g.cIntro g.cBody g.cConcl
    translatedAnswer := mkCorrectionField g.tIntro g.tBody g.tConcl
    feedback := cleanAiText g.feedback
    audioLink := [] }

/-- `analyzeAudio` (Dashboard.tsx lines 534-643): reject if busy, upload the
raw clip, call the grading backend, build and persist the StudySession,
update unit progress, then kick off the synthesis job.  Any thrown step is
caught (alert + log) and `finally` clears the busy flag. -/
def analyzeAudio (env : AnalyzeEnv) (s : OrchState) : OrchState × List Event :=
  -- line 535: reject a second analysis while one is in flight
  if s.isAnalyzing then (s, [])
  else
    let s := { s with isAnalyzing := true }
    -- line 564: upload the raw recording
    match uploadAudioToDrive env.rawUpload with
    | .error _ =>
      ({ s with isAnalyzing := false }, [.uploadRawCall, .errorLogged "analyze".toList])
    | .ok rawUrlOpt =>
      -- line 568: grading call
      match env.grading with
      | none =>
        ({ s with isAnalyzing := false },
         [.uploadRawCall, .gradeCall, .errorLogged "analyze".toList])
      | some g =>
        -- lines 595-632: post-process and build the log entry
        let initialLog : StudyLogEntry := buildInitialLog env g rawUrlOpt
        -- line 634: persist (only a rejected fetch aborts; the boolean is unused)
        match env.saveResult with
        | none =>
          ({ s with isAnalyzing := false },
           [.uploadRawCall, .gradeCall, .saveLog initialLog, .errorLogged "analyze".toList])
        | some _ =>
          let s := { s with unitHistory := initialLog :: s.unitHistory }
          -- line 637: unit progress row
          if env.updateUnitThrows then
            ({ s with isAnalyzing := false },
             [.uploadRawCall, .gradeCall, .saveLog initialLog,
              .errorLogged "analyze".toList])
          else
            -- lines 638-639: master progress + in-memory units
            let newUnits := s.units.map (fun (u : UnitProgressRow) =>
              if u.fullId = env.unitFullId then
                { u with
                  status := "완료".toList
                  grade := initialLog.grade
                  lastPractice := env.practiceTime }
              else u)
            let s := { s with units := newUnits }
            -- line 641: fire the synthesis job (not awaited)
            let (s', jobEvents) := processOnlyModelMedia env.job initialLog s
            ({ s' with isAnalyzing := false },
             [.uploadRawCall, .gradeCall, .saveLog initialLog,
              .updateUnit "완료".toList initialLog.grade env.practiceTime,
              .updateMaster] ++ jobEvents)

/-!
## Deletion (Dashboard.tsx lines 757-774, App.tsx lines 572-586)
-/

inductive TaskPc where
  | start        -- about to run lines 376-393
  | afterResume  -- suspended at `await audioContextRef.current.resume()` (line 393)
  | decodePlay   -- cache hit: suspended at `await decodeRawPcm` (line 399), then start
  | polling      -- waiting in the line-409 interval
  | fetching     -- suspended at the line-423 fetch
  | synthWait    -- suspended at the line-437 synthesis call
  | playDecoded  -- suspended at the final `decodeRawPcm`, then play (lines 449-455)
  | done
deriving DecidableEq, Repr

structure PlayTask where
  text : Str
  id : Str
  driveUrl : Option Str
  captured : Option (Option (Str × TtsStatus))
  pc : TaskPc
deriving Repr

/-- Shared state for the interleaved model: the audio state, whether the
AudioContext starts suspended (making line 393 a suspension point), and the
number of speech-synthesis backend requests issued so far. -/
structure MState where
  play : PlayState
  ctxSuspended : Bool
  synthCalls : Nat
deriving Repr

/-- Lines 395-447 up to the next suspension (the code after the optional
line-393 `await resume()`). -/
def afterResumeStep (env : PlayEnv) (s : MState) (t : PlayTask) : MState × PlayTask :=
  let cleanText := flattenForTts t.text
  if cleanText ≠ [] ∧ (lookupA cleanText s.play.cache).isSome then
    -- line 397: status := playing, then await the raw-PCM decode
    ({ s with play := { s.play with ttsState := some (t.id, .playing) } },
     { t with pc := .decodePlay })
  else if t.id = correctionId ∧ s.play.marker.isSome ∧ t.driveUrl = none then
    -- lines 407-415: enter the bounded polling wait
    ({ s with play := { s.play with ttsState := some (t.id, .loading) } },
     { t with pc := .polling })
  else
    let s := { s with play := { s.play with ttsState := some (t.id, .loading) } }
    match t.driveUrl, t.driveUrl.bind env.extractFid with
    | some _, some _ => (s, { t with pc := .fetching })
    | _, _ =>
      if cleanText = [] then
        -- line 435: throw, caught at line 456
        ({ s with play := { s.play with ttsState := none } }, { t with pc := .done })
      else
        -- line 437: the backend request is issued at this await
        ({ s with synthCalls := s.synthCalls + 1 }, { t with pc := .synthWait })

/-- One run-to-completion segment of a `playHighQualityAudio` invocation. -/
def stepPlay (env : PlayEnv) (s : MState) (t : PlayTask) : MState × PlayTask :=
  match t.pc with
  | .start =>
    let snap := t.captured.getD s.play.ttsState
    let t := { t with captured := some snap }
    if ttsIdIs snap t.id then
      ({ s with play := stopAllAudio s.play }, { t with pc := .done })
    else
      let s := { s with play := stopAllAudio s.play }
      let cleanText := flattenForTts t.text
      if t.id = qId ∧ cleanText ≠ [] then
        ({ s with play :=
            { s.play with ttsState := some (t.id, .playing), nativeSpeaking := true } },
         { t with pc := .done })
      else
        if s.ctxSuspended then (s, { t with pc := .afterResume })
        else afterResumeStep env s t
  | .afterResume => afterResumeStep env s t
  | .decodePlay =>
    -- lines 400-404: connect and start the source (status set before the await)
    ({ s with play := { s.play with activeSource := true } }, { t with pc := .done })
  | .polling =>
    let cleanText := flattenForTts t.text
    if (lookupA cleanText s.play.cache).isSome then
      -- line 412: recurse with the stale closure state
      (s, { t with pc := .start })
    else (s, t)
  | .fetching =>
    match env.fetchResult with
    | none =>
      ({ s with play := { s.play with ttsState := none } }, { t with pc := .done })
    | some bytes =>
      let cleanText := flattenForTts t.text
      match t.driveUrl with
      | some u =>
        if containsSub modelLit t.id ∨ t.id = correctionId ∨ containsSub alModelLit u then
          let cache' := if cleanText ≠ [] then insertA cleanText bytes s.play.cache
                        else s.play.cache
          ({ s with play := { s.play with cache := cache' } }, { t with pc := .playDecoded })
        else
          if env.decodeOk then (s, { t with pc := .playDecoded })
          else ({ s with play := { s.play with ttsState := none } }, { t with pc := .done })
      | none => (s, { t with pc := .done })  -- unreachable: fetching implies a url
  | .synthWait =>
    match env.synthResult with
    | none =>
      -- backend threw: catch at line 456 logs and resets the status
      ({ s with play := { s.play with ttsState := none } }, { t with pc := .done })
    | some pcm =>
      -- lines 445-447: cache the samples, then await the raw-PCM decode
      let cleanText := flattenForTts t.text
      let cache' := if cleanText ≠ [] then insertA cleanText pcm s.play.cache
                    else s.play.cache
      ({ s with play := { s.play with cache := cache' } }, { t with pc := .playDecoded })
  | .playDecoded =>
    -- lines 449-455
    ({ s with play :=
        { s.play with ttsState := some (t.id, .playing), activeSource := true } },
     { t with pc := .done })
  | .done => (s, t)

/-- Two concurrent invocations plus the shared state. -/
structure TwoCfg where
  s : MState
  a : PlayTask
  b : PlayTask
deriving Repr

/-- Scheduler: `true` steps task `a`, `false` steps task `b`. -/
def stepCfg (env : PlayEnv) (c : TwoCfg) (flag : Bool) : TwoCfg :=
  if flag then
    let r := stepPlay env c.s c.a
    { c with s := r.1, a := r.2 }
  else
    let r := stepPlay env c.s c.b
    { c with s := r.1, b := r.2 }

def runCfg (env : PlayEnv) : List Bool → TwoCfg → TwoCfg
  | [], c => c
  | f :: rest, c => runCfg env rest (stepCfg env c f)

/-- A fresh invocation of `playHighQualityAudio text id driveUrl`. -/
def mkTask (text id : Str) (driveUrl : Option Str) : PlayTask :=
  { text := text, id := id, driveUrl := driveUrl, captured := none, pc := .start }

/-!
## Properties of the delimiter join/split (claim C4)
-/

theorem startsWithSub_append (p t : Str) : startsWithSub p (p ++ t) = true := by
  induction p with
  | nil => rfl
  | cons c p ih => simp [startsWithSub, ih]

theorem partDelimiter_eq :
    partDelimiter = ' ' :: '[' :: 'P' :: 'A' :: 'R' :: 'T' :: ']' :: ' ' :: [] := rfl

/-- The delimiter cannot begin at a position whose second character is not `[`. -/
theorem delim_not_prefix (c : Char) (l : Str)
    (h : ∀ d, l.head? = some d → d ≠ '[') :
    startsWithSub partDelimiter (c :: l) = false := by
  rw [partDelimiter_eq]
  match l with
  | [] => simp [startsWithSub]
  | d :: l' =>
    have hd : d ≠ '[' := h d rfl
    simp only [startsWithSub, Bool.and_eq_false_iff]
    right
    left
    simp [hd.symm]

/-- Splitting a bracket-free string yields just that string. -/
theorem splitOnSub_no_delim (p : Str) (hp : '[' ∉ p) :
    splitOnSub partDelimiter p = [p] := by
  induction p with
  | nil => rw [splitOnSub.eq_def]
  | cons c p ih =>
    have hcond : startsWithSub partDelimiter (c :: p) = false := by
      apply delim_not_prefix
      intro d hd
      match p, hd with
      | d :: p', rfl => exact fun h => hp (by simp [h])
    have hp' : '[' ∉ p := fun h => hp (List.mem_cons_of_mem _ h)
    rw [splitOnSub.eq_def]
    simp [hcond, ih hp']

/-- Splitting `p ++ delim ++ t` for bracket-free `p` cuts exactly at the
inserted delimiter. -/
theorem splitOnSub_append_delim (p t : Str) (hp : '[' ∉ p) :
    splitOnSub partDelimiter (p ++ (partDelimiter ++ t))
      = p :: splitOnSub partDelimiter t := by
  induction p with
  | nil =>
    rw [List.nil_append, splitOnSub.eq_def]
    have h1 : startsWithSub partDelimiter (partDelimiter ++ t) = true :=
      startsWithSub_append _ _
    rw [partDelimiter_eq] at h1 ⊢
    simp only [List.cons_append, List.nil_append] at h1 ⊢
    simp [h1, List.drop]
  | cons c p ih =>
    have hcond : startsWithSub partDelimiter (c :: (p ++ (partDelimiter ++ t))) = false := by
      apply delim_not_prefix
      intro d hd
      match p, hd with
      | [], hd =>
        rw [partDelimiter_eq] at hd
        simp at hd
        exact fun h => by simp [h] at hd
      | d :: p', rfl => exact fun h => hp (by simp [h])
    have hp' : '[' ∉ p := fun h => hp (List.mem_cons_of_mem _ h)
    rw [List.cons_append, splitOnSub.eq_def]
    simp [hcond, ih hp']

/-- Every character produced by `collapseWs` is a space or comes from the
input. -/
theorem mem_collapseWs (c' : Char) : ∀ (l : Str), c' ∈ collapseWs l → c' = ' ' ∨ c' ∈ l := by
  intro l
  induction l with
  | nil => intro h; simp [collapseWs] at h
  | cons c rest ih =>
    match rest with
    | [] =>
      intro h
      simp only [collapseWs] at h
      by_cases hc : isJsWs c
      · simp [hc] at h; exact Or.inl h
      · simp [hc] at h; exact Or.inr (by simp [h])
    | d :: rest' =>
      intro h
      simp only [collapseWs] at h
      by_cases hcd : isJsWs c && isJsWs d
      · rw [if_pos hcd] at h
        rcases ih h with h1 | h1
        · exact Or.inl h1
        · exact Or.inr (List.mem_cons_of_mem _ h1)
      · rw [if_neg hcd] at h
        rcases List.mem_cons.mp h with h1 | h1
        · by_cases hc : isJsWs c
          · rw [if_pos hc] at h1; exact Or.inl h1
          · rw [if_neg hc] at h1; exact Or.inr (by simp [h1])
        · rcases ih h1 with h2 | h2
          · exact Or.inl h2
          · exact Or.inr (List.mem_cons_of_mem _ h2)

theorem mem_trimWs (c' : Char) (l : Str) (h : c' ∈ trimWs l) : c' ∈ l := by
  unfold trimWs at h
  rw [List.mem_reverse] at h
  have h2 := (List.dropWhile_sublist (l := (l.dropWhile isJsWs).reverse) isJsWs).mem h
  rw [List.mem_reverse] at h2
  exact (List.dropWhile_sublist isJsWs).mem h2

/-- The post-processed parts are bracket-free: `cleanAiText` filters `[` out
and the later passes introduce only spaces. -/
theorem bracket_not_mem_cleanAiText (s : Str) : '[' ∉ cleanAiText s := by
  intro h
  unfold cleanAiText at h
  have h1 := mem_trimWs _ _ h
  rcases mem_collapseWs _ _ h1 with h2 | h2
  · exact absurd h2 (by decide)
  · rw [List.mem_filter] at h2
    have : isMarkupChar '[' = true := by decide
    simp [this] at h2

/-- The delimiter occurs in any string of the form `p ++ delim ++ t`. -/
theorem containsSub_append_delim (p t : Str) :
    containsSub partDelimiter (p ++ (partDelimiter ++ t)) = true := by
  induction p with
  | nil =>
    rw [List.nil_append]
    match ht : partDelimiter ++ t with
    | [] => rw [partDelimiter_eq] at ht; simp at ht
    | c :: rest =>
      rw [containsSub, ← ht, startsWithSub_append]
      simp
  | cons c p ih =>
    rw [List.cons_append, containsSub, ih]
    simp

/-- C4 (confirmed): joining the three post-processed model-answer parts with
the reserved delimiter `" [PART] "` and splitting the stored field on that
same delimiter recovers exactly the three original parts — `cleanAiText`
removes every `[`, so the delimiter cannot occur inside a part.  The second
conjunct is `restudyLog`'s actual recovery of the parts. -/
theorem c4_delimiter_roundtrip (ia ib ic : Str) :
    splitOnSub partDelimiter (mkCorrectionField ia ib ic)
      = [cleanAiText ia, cleanAiText ib, cleanAiText ic]
    ∧ restudyCorrectionParts (mkCorrectionField ia ib ic)
      = some (cleanAiText ia, cleanAiText ib, cleanAiText ic) := by
  have ha := bracket_not_mem_cleanAiText ia
  have hb := bracket_not_mem_cleanAiText ib
  have hc := bracket_not_mem_cleanAiText ic
  have hassoc : mkCorrectionField ia ib ic
      = cleanAiText ia ++ (partDelimiter
          ++ (cleanAiText ib ++ (partDelimiter ++ cleanAiText ic))) := by
    unfold mkCorrectionField
    simp [List.append_assoc]
  have hsplit : splitOnSub partDelimiter (mkCorrectionField ia ib ic)
      = [cleanAiText ia, cleanAiText ib, cleanAiText ic] := by
    rw [hassoc, splitOnSub_append_delim _ _ ha, splitOnSub_append_delim _ _ hb,
      splitOnSub_no_delim _ hc]
  refine ⟨hsplit, ?_⟩
  have hcontains : containsSub partDelimiter (mkCorrectionField ia ib ic) = true := by
    rw [hassoc]
    exact containsSub_append_delim _ _
  unfold restudyCorrectionParts
  rw [if_pos hcontains, hsplit]
  rfl

/-!
## Claim theorems
-/

/-- C3 (confirmed): when a recording session is marked cancelled before
finalizing, stopping the recorder emits no clip, never invokes
`analyzeAudio`, and releases the device stream; `cancelRecording` is what
sets that mark. -/
theorem c3_cancelled_never_emits (sess : RecSession) (h : sess.cancelling = true) :
    (recorderOnStop sess).2.1 = none
    ∧ (recorderOnStop sess).2.2 = false
    ∧ (recorderOnStop sess).1.streamOpen = false
    ∧ ∀ s' : RecSession, (cancelRecording s').cancelling = true := by
  unfold recorderOnStop
  simp [h, cancelRecording]

theorem c3_cancelled_never_emits_witness :
    (recorderOnStop { chunks := ["aa".toList, "bb".toList], cancelling := true,
                      streamOpen := true }).2.1 = none
    ∧ (recorderOnStop { chunks := ["aa".toList, "bb".toList], cancelling := true,
                        streamOpen := true }).2.2 = false
    ∧ (recorderOnStop { chunks := ["aa".toList, "bb".toList], cancelling := true,
                        streamOpen := true }).1.streamOpen = false
    ∧ ∀ s' : RecSession, (cancelRecording s').cancelling = true :=
  c3_cancelled_never_emits _ rfl

/-- C6 (confirmed): every run of `processOnlyModelMedia` — success, any
failure, or the early exit for empty flattened text — ends with the
single-slot in-flight marker released (`finally` at line 673). -/
theorem c6_marker_always_released (env : JobEnv) (log : StudyLogEntry) (s : OrchState) :
    (processOnlyModelMedia env log s).1.play.marker = none := by
  unfold processOnlyModelMedia
  by_cases hp : flattenForTts log.correction = [] <;>
    rcases hs : env.synthResult with _ | pcm <;>
    rcases hu : uploadAudioToDrive env.modelUpload with e | u <;>
    simp [hp, hs, hu]

/-- Helper: on a cache hit (and no toggle, not the question id), one
`playHighQualityAudio` call plays from cache with no external calls. -/
theorem playHQA_cache_hit (env : PlayEnv) (text id : Str) (driveUrl : Option Str)
    (s : PlayState)
    (htog : ttsIdIs s.ttsState id = false)
    (hq : id ≠ qId)
    (hne : flattenForTts text ≠ [])
    (hhit : (lookupA (flattenForTts text) s.cache).isSome = true) :
    playHQA env text id driveUrl s
      = ({ cache := s.cache, ttsState := some (id, TtsStatus.playing),
           activeSource := true, nativeSpeaking := false, marker := s.marker }, []) := by
  unfold playHQA
  simp [htog, hq, stopAllAudio, hne, hhit]

/-- Helper: whatever branch a call takes on a cache hit, no synthesis-backend
call and no asset fetch is issued. -/
theorem playHQA_cache_hit_no_backend (env : PlayEnv) (text id : Str)
    (driveUrl : Option Str) (s : PlayState)
    (hne : flattenForTts text ≠ [])
    (hhit : (lookupA (flattenForTts text) s.cache).isSome = true) :
    ∀ e ∈ (playHQA env text id driveUrl s).2,
      (∀ t', e ≠ .synthCall t') ∧ (∀ f, e ≠ .fetchAsset f) := by
  unfold playHQA
  by_cases htog : ttsIdIs s.ttsState id
  · simp [htog]
  · by_cases hqc : id = qId
    · subst hqc
      simp [htog, stopAllAudio, hne]
    · simp [htog, hqc, stopAllAudio, hne, hhit]

/-- A concrete environment in which every network interaction would fail:
used by witnesses to show cache hits need no network. -/
def envNoNet : PlayEnv :=
  { extractFid := fun _ => none, fetchResult := none, decodeOk := false,
    synthResult := none }

/-- C9 (confirmed): when the normalized key of `text` is already in
SpeechCache, a playback request for `text` issues no synthesis-backend call
and no asset fetch — whatever the display context `id` — and (unless it is
the toggle-stop case or the question id) it plays from the cache. -/
theorem c9_cache_idempotence (env : PlayEnv) (text id : Str)
    (driveUrl : Option Str) (s : PlayState)
    (hne : flattenForTts text ≠ [])
    (hhit : (lookupA (flattenForTts text) s.cache).isSome = true) :
    (∀ e ∈ (playHQA env text id driveUrl s).2,
       (∀ t', e ≠ .synthCall t') ∧ (∀ f, e ≠ .fetchAsset f))
    ∧ (ttsIdIs s.ttsState id = false → id ≠ qId →
        playHQA env text id driveUrl s
          = ({ cache := s.cache, ttsState := some (id, TtsStatus.playing),
               activeSource := true, nativeSpeaking := false, marker := s.marker }, [])) :=
  ⟨playHQA_cache_hit_no_backend env text id driveUrl s hne hhit,
   fun htog hq => playHQA_cache_hit env text id driveUrl s htog hq hne hhit⟩

theorem c9_cache_idempotence_witness :
    (∀ e ∈ (playHQA envNoNet "hi".toList "model-S1".toList none
        { cache := [("hi".toList, "pcm".toList)], ttsState := none,
          activeSource := false, nativeSpeaking := false, marker := none }).2,
       (∀ t', e ≠ .synthCall t') ∧ (∀ f, e ≠ .fetchAsset f))
    ∧ (ttsIdIs (none : Option (Str × TtsStatus)) "model-S1".toList = false →
        "model-S1".toList ≠ qId →
        playHQA envNoNet "hi".toList "model-S1".toList none
          { cache := [("hi".toList, "pcm".toList)], ttsState := none,
            activeSource := false, nativeSpeaking := false, marker := none }
          = ({ cache := [("hi".toList, "pcm".toList)],
               ttsState := some ("model-S1".toList, TtsStatus.playing),
               activeSource := true, nativeSpeaking := false, marker := none }, [])) :=
  c9_cache_idempotence envNoNet "hi".toList "model-S1".toList none _
    (by simp [flattenForTts, splitOnSub.eq_def, startsWithSub, trimWs, isJsWs,
          List.intercalate])
    (by simp [flattenForTts, splitOnSub.eq_def, startsWithSub, trimWs, isJsWs,
          List.intercalate, lookupA])

/-- C10 (confirmed): fetching a remote model-answer asset (id containing
`model`, id `correction`, or an `AL_MODEL` URL) with non-empty normalized
text writes the fetched bytes into SpeechCache under the text's key — so a
later request for the same text is a cache hit with no backend call — while
fetching a user-raw asset leaves SpeechCache unchanged. -/
theorem c10_model_asset_caches_user_raw_does_not (env : PlayEnv) (text id u : Str)
    (s : PlayState) (fid bytes : Str)
    (htog : ttsIdIs s.ttsState id = false)
    (hq : id ≠ qId)
    (hmiss : (lookupA (flattenForTts text) s.cache).isSome = false)
    (hfid : env.extractFid u = some fid)
    (hfetch : env.fetchResult = some bytes) :
    (flattenForTts text ≠ [] →
      (containsSub modelLit id = true ∨ id = correctionId ∨ containsSub alModelLit u = true) →
      lookupA (flattenForTts text) (playHQA env text id (some u) s).1.cache = some bytes
      ∧ (playHQA env text id (some u) s).1.ttsState = some (id, TtsStatus.playing)
      ∧ (∀ env2 id2 url2,
          ∀ e ∈ (playHQA env2 text id2 url2 (playHQA env text id (some u) s).1).2,
            (∀ t', e ≠ .synthCall t') ∧ (∀ f, e ≠ .fetchAsset f)))
    ∧ (containsSub modelLit id = false → id ≠ correctionId → containsSub alModelLit u = false →
        (playHQA env text id (some u) s).1.cache = s.cache) := by
  constructor
  · intro hne hmc
    have hres : (playHQA env text id (some u) s).1.cache
        = insertA (flattenForTts text) bytes s.cache
        ∧ (playHQA env text id (some u) s).1.ttsState = some (id, TtsStatus.playing) := by
      unfold playHQA
      have hmc' : (containsSub modelLit id = true ∨ id = correctionId
          ∨ containsSub alModelLit u = true) := hmc
      simp [htog, hq, stopAllAudio, hmiss, hfid, hfetch, hne, hmc']
    have hlook : lookupA (flattenForTts text) (playHQA env text id (some u) s).1.cache
        = some bytes := by
      rw [hres.1]
      simp [lookupA, insertA]
    refine ⟨hlook, hres.2, ?_⟩
    intro env2 id2 url2
    exact playHQA_cache_hit_no_backend env2 text id2 url2 _ hne (by rw [hlook]; rfl)
  · intro hm1 hm2 hm3
    unfold playHQA
    simp [htog, hq, stopAllAudio, hmiss, hfid, hfetch, hm1, hm2, hm3]
    by_cases hdec : env.decodeOk <;> simp [hdec]

/-- A concrete environment whose asset fetch succeeds. -/
def envFetch : PlayEnv :=
  { extractFid := fun _ => some "FID9".toList, fetchResult := some "bytes".toList,
    decodeOk := true, synthResult := none }

theorem c10_model_asset_caches_user_raw_does_not_witness :
    (flattenForTts "hi".toList ≠ [] →
      (containsSub modelLit "model-S1".toList = true ∨ "model-S1".toList = correctionId
        ∨ containsSub alModelLit "url1".toList = true) →
      lookupA (flattenForTts "hi".toList)
          (playHQA envFetch "hi".toList "model-S1".toList (some "url1".toList)
            initPlayState).1.cache = some "bytes".toList
      ∧ (playHQA envFetch "hi".toList "model-S1".toList (some "url1".toList)
            initPlayState).1.ttsState = some ("model-S1".toList, TtsStatus.playing)
      ∧ (∀ env2 id2 url2,
          ∀ e ∈ (playHQA env2 "hi".toList id2 url2
              (playHQA envFetch "hi".toList "model-S1".toList (some "url1".toList)
                initPlayState).1).2,
            (∀ t', e ≠ .synthCall t') ∧ (∀ f, e ≠ .fetchAsset f)))
    ∧ (containsSub modelLit "model-S1".toList = false →
        "model-S1".toList ≠ correctionId →
        containsSub alModelLit "url1".toList = false →
        (playHQA envFetch "hi".toList "model-S1".toList (some "url1".toList)
          initPlayState).1.cache = initPlayState.cache) :=
  c10_model_asset_caches_user_raw_does_not envFetch "hi".toList "model-S1".toList
    "url1".toList initPlayState "FID9".toList "bytes".toList
    (by decide) (by decide)
    (by simp [flattenForTts, splitOnSub.eq_def, startsWithSub, trimWs, isJsWs,
          List.intercalate, lookupA, initPlayState])
    rfl rfl

/-- Stable idle audio state: no status, no WebAudio source, no utterance. -/
def idleNoAudio (s : PlayState) : Prop :=
  s.ttsState = none ∧ s.activeSource = false ∧ s.nativeSpeaking = false

/-- C7 (confirmed): each enumerated failure — network failure on the asset
fetch, decode failure on a user-raw asset, empty flattened text, synthesis
backend error — is caught at Dashboard.tsx line 456: it is logged and resets
the playback status to idle; and every failing `analyzeAudio` step is caught
at line 642: it is logged and the busy/analyzing flag is cleared. -/
theorem c7_failures_logged_and_idle :
    (∀ (env : PlayEnv) (text id u fid : Str) (s : PlayState),
        ttsIdIs s.ttsState id = false → id ≠ qId →
        (lookupA (flattenForTts text) s.cache).isSome = false →
        env.extractFid u = some fid → env.fetchResult = none →
        idleNoAudio (playHQA env text id (some u) s).1
        ∧ Event.errorLogged "TTS".toList ∈ (playHQA env text id (some u) s).2)
    ∧ (∀ (env : PlayEnv) (text id u fid bytes : Str) (s : PlayState),
        ttsIdIs s.ttsState id = false → id ≠ qId →
        (lookupA (flattenForTts text) s.cache).isSome = false →
        env.extractFid u = some fid → env.fetchResult = some bytes →
        containsSub modelLit id = false → id ≠ correctionId →
        containsSub alModelLit u = false → env.decodeOk = false →
        idleNoAudio (playHQA env text id (some u) s).1
        ∧ Event.errorLogged "TTS".toList ∈ (playHQA env text id (some u) s).2)
    ∧ (∀ (env : PlayEnv) (text id : Str) (s : PlayState),
        ttsIdIs s.ttsState id = false →
        flattenForTts text = [] →
        ¬(id = correctionId ∧ s.marker.isSome) →
        idleNoAudio (playHQA env text id none s).1
        ∧ Event.errorLogged "TTS".toList ∈ (playHQA env text id none s).2)
    ∧ (∀ (env : PlayEnv) (text id : Str) (s : PlayState),
        ttsIdIs s.ttsState id = false → id ≠ qId →
        (lookupA (flattenForTts text) s.cache).isSome = false →
        ¬(id = correctionId ∧ s.marker.isSome) →
        env.synthResult = none →
        idleNoAudio (playHQA env text id none s).1
        ∧ Event.errorLogged "TTS".toList ∈ (playHQA env text id none s).2)
    ∧ (∀ (env : AnalyzeEnv) (s : OrchState),
        s.isAnalyzing = false →
        (env.rawUpload = DriveResp.netErr ∨ env.grading = none
          ∨ env.saveResult = none ∨ env.updateUnitThrows = true) →
        (analyzeAudio env s).1.isAnalyzing = false
        ∧ Event.errorLogged "analyze".toList ∈ (analyzeAudio env s).2) := by
  refine ⟨?_, ?_, ?_, ?_, ?_⟩
  · intro env text id u fid s htog hq hmiss hfid hfetch
    unfold playHQA
    simp [htog, hq, stopAllAudio, hmiss, hfid, hfetch, idleNoAudio]
  · intro env text id u fid bytes s htog hq hmiss hfid hfetch hm1 hm2 hm3 hdec
    unfold playHQA
    simp [htog, hq, stopAllAudio, hmiss, hfid, hfetch, hm1, hm2, hm3, hdec, idleNoAudio]
  · intro env text id s htog hempty hpoll
    unfold playHQA
    have hq' : ¬(id = qId ∧ flattenForTts text ≠ []) := by simp [hempty]
    simp [htog, stopAllAudio, hempty, hpoll, idleNoAudio]
  · intro env text id s htog hq hmiss hpoll hsynth
    unfold playHQA
    by_cases hcl : flattenForTts text = [] <;>
      simp [htog, hq, stopAllAudio, hmiss, hpoll, hsynth, idleNoAudio, hcl]
  · intro env s hidle hfail
    unfold analyzeAudio
    rw [if_neg (by simp [hidle])]
    rcases henv : env.rawUpload with _ | _ | ⟨link, fid⟩
    · simp [henv, uploadAudioToDrive]
    · rcases hg : env.grading with _ | g
      · simp [henv, hg, uploadAudioToDrive]
      · rcases hsv : env.saveResult with _ | b
        · simp [henv, hg, hsv, uploadAudioToDrive]
        · have hut : env.updateUnitThrows = true := by
            rcases hfail with h | h | h | h
            · rw [henv] at h; exact absurd h (by simp)
            · rw [hg] at h; exact absurd h (by simp)
            · rw [hsv] at h; exact absurd h (by simp)
            · exact h
          simp [henv, hg, hsv, hut, uploadAudioToDrive]
    · rcases hg : env.grading with _ | g
      · simp [henv, hg, uploadAudioToDrive]
      · rcases hsv : env.saveResult with _ | b
        · simp [henv, hg, hsv, uploadAudioToDrive]
        · have hut : env.updateUnitThrows = true := by
            rcases hfail with h | h | h | h
            · rw [henv] at h; exact absurd h (by simp)
            · rw [hg] at h; exact absurd h (by simp)
            · rw [hsv] at h; exact absurd h (by simp)
            · exact h
          simp [henv, hg, hsv, hut, uploadAudioToDrive]

def envFidNetErr : PlayEnv :=
  { extractFid := fun _ => some "F1".toList, fetchResult := none, decodeOk := false,
    synthResult := none }

def envFetchBadDecode : PlayEnv :=
  { extractFid := fun _ => some "F1".toList, fetchResult := some "bb".toList,
    decodeOk := false, synthResult := none }

def orchInit : OrchState :=
  { isAnalyzing := false, play := initPlayState, unitHistory := [], units := [] }

def envGradeFail : AnalyzeEnv :=
  { sessionId := "S1".toList, practiceTime := "T1".toList, unitFullId := "U1".toList,
    unitTopic := "Top".toList, unitEssence := "Ess".toList, qType := "Q".toList,
    question := "Qu".toList, keywords := "K".toList, rawUpload := .httpErr,
    grading := none, saveResult := some true, updateUnitThrows := false,
    job := { synthResult := none, modelUpload := .netErr } }

theorem c7_failures_logged_and_idle_witness :
    (idleNoAudio (playHQA envFidNetErr "hi".toList "raw-user".toList
        (some "url1".toList) initPlayState).1
      ∧ Event.errorLogged "TTS".toList ∈ (playHQA envFidNetErr "hi".toList
          "raw-user".toList (some "url1".toList) initPlayState).2)
    ∧ (idleNoAudio (playHQA envFetchBadDecode "hi".toList "raw-user".toList
          (some "url1".toList) initPlayState).1
      ∧ Event.errorLogged "TTS".toList ∈ (playHQA envFetchBadDecode "hi".toList
          "raw-user".toList (some "url1".toList) initPlayState).2)
    ∧ (idleNoAudio (playHQA envNoNet "".toList "raw-user".toList none initPlayState).1
      ∧ Event.errorLogged "TTS".toList
          ∈ (playHQA envNoNet "".toList "raw-user".toList none initPlayState).2)
    ∧ (idleNoAudio (playHQA envNoNet "hi".toList correctionId none initPlayState).1
      ∧ Event.errorLogged "TTS".toList
          ∈ (playHQA envNoNet "hi".toList correctionId none initPlayState).2)
    ∧ ((analyzeAudio envGradeFail orchInit).1.isAnalyzing = false
      ∧ Event.errorLogged "analyze".toList ∈ (analyzeAudio envGradeFail orchInit).2) :=
  ⟨c7_failures_logged_and_idle.1 envFidNetErr "hi".toList "raw-user".toList
      "url1".toList "F1".toList initPlayState rfl (by decide)
      (by simp [flattenForTts, splitOnSub.eq_def, startsWithSub, trimWs, isJsWs,
            List.intercalate, lookupA, initPlayState]) rfl rfl,
   c7_failures_logged_and_idle.2.1 envFetchBadDecode "hi".toList "raw-user".toList
      "url1".toList "F1".toList "bb".toList initPlayState rfl (by decide)
      (by simp [flattenForTts, splitOnSub.eq_def, startsWithSub, trimWs, isJsWs,
            List.intercalate, lookupA, initPlayState])
      rfl rfl (by decide) (by decide) (by decide) rfl,
   c7_failures_logged_and_idle.2.2.1 envNoNet "".toList "raw-user".toList initPlayState
      rfl (by simp [flattenForTts, splitOnSub.eq_def, startsWithSub, trimWs, isJsWs,
            List.intercalate])
      (by simp [initPlayState, correctionId]),
   c7_failures_logged_and_idle.2.2.2.1 envNoNet "hi".toList correctionId initPlayState
      rfl (by decide)
      (by simp [flattenForTts, splitOnSub.eq_def, startsWithSub, trimWs, isJsWs,
            List.intercalate, lookupA, initPlayState])
      (by simp [initPlayState]) rfl,
   c7_failures_logged_and_idle.2.2.2.2 envGradeFail orchInit rfl (Or.inr (Or.inl rfl))⟩

/-- C5 (confirmed): in a successful recording→grading→synthesis sequence the
StudySession row is persisted (`saveStudyLog`, with empty model-audio link)
strictly before the synthesis job's `updateStudyLog` of that row, and the
job's update carries the same session id and a non-empty model-audio link
(`uploadAudioToDrive` returns a non-empty URL whenever the upload
succeeds). -/
theorem c5_persist_precedes_job_update (env : AnalyzeEnv) (s : OrchState)
    (g : GradeData) (rawOpt : Option Str) (b : Bool) (pcm link fid : Str)
    (hidle : s.isAnalyzing = false)
    (hraw : uploadAudioToDrive env.rawUpload = Except.ok rawOpt)
    (hg : env.grading = some g)
    (hsv : env.saveResult = some b)
    (hut : env.updateUnitThrows = false)
    (hsy : env.job.synthResult = some pcm)
    (hmu : env.job.modelUpload = DriveResp.ok link fid)
    (hplain : flattenForTts (mkCorrectionField g.cIntro g.cBody g.cConcl) ≠ []) :
    ∃ i j row row',
      i < j
      ∧ (analyzeAudio env s).2.get? i = some (.saveLog row)
      ∧ row.sessionId = env.sessionId ∧ row.audioLink = []
      ∧ (analyzeAudio env s).2.get? j = some (.updateLog row')
      ∧ row'.sessionId = env.sessionId ∧ row'.audioLink ≠ []
      ∧ (∀ k r', (analyzeAudio env s).2.get? k = some (.updateLog r') → k = j) := by
  have hcorr : (buildInitialLog env g rawOpt).correction
      = mkCorrectionField g.cIntro g.cBody g.cConcl := rfl
  have htr : (analyzeAudio env s).2 =
      [.uploadRawCall, .gradeCall, .saveLog (buildInitialLog env g rawOpt),
       .updateUnit "완료".toList (buildInitialLog env g rawOpt).grade env.practiceTime,
       .updateMaster,
       .synthCall (flattenForTts (mkCorrectionField g.cIntro g.cBody g.cConcl)),
       .uploadModelCall,
       .updateLog { buildInitialLog env g rawOpt with
         audioLink := if link ≠ [] then link
           else "https://drive.google.com/file/d/".toList ++ fid ++ "/view".toList }] := by
    have hmu2 : uploadAudioToDrive env.job.modelUpload
        = Except.ok (some (if link ≠ [] then link
            else "https://drive.google.com/file/d/".toList ++ fid ++ "/view".toList)) := by
      rw [hmu]; rfl
    unfold analyzeAudio processOnlyModelMedia
    simp [hidle, hraw, hg, hsv, hut, hsy, hmu2, hplain, hcorr]
  refine ⟨2, 7, buildInitialLog env g rawOpt,
    { buildInitialLog env g rawOpt with
      audioLink := if link ≠ [] then link
        else "https://drive.google.com/file/d/".toList ++ fid ++ "/view".toList },
    by omega, by rw [htr]; rfl, rfl, rfl, by rw [htr]; rfl, rfl, ?_, ?_⟩
  · split_ifs with hl
    · exact hl
    · rw [show "https://drive.google.com/file/d/".toList
          = 'h' :: "ttps://drive.google.com/file/d/".toList from rfl]
      simp
  · intro k r' hk
    rw [htr] at hk
    rcases k with _|_|_|_|_|_|_|_|k
    · simp at hk
    · simp at hk
    · simp at hk
    · simp at hk
    · simp at hk
    · simp at hk
    · simp at hk
    · rfl
    · simp at hk

def gSample : GradeData :=
  { transcript := "t".toList, cIntro := "a".toList, cBody := "b".toList,
    cConcl := "c".toList, tIntro := "d".toList, tBody := "e".toList,
    tConcl := "f".toList, feedback := "fb".toList, predictedLevel := "IH".toList }

def envJobOk : AnalyzeEnv :=
  { sessionId := "S1".toList, practiceTime := "T1".toList, unitFullId := "U1".toList,
    unitTopic := "Top".toList, unitEssence := "Ess".toList, qType := "Q".toList,
    question := "Qu".toList, keywords := "K".toList, rawUpload := .httpErr,
    grading := some gSample, saveResult := some true, updateUnitThrows := false,
    job := { synthResult := some "pcm".toList,
             modelUpload := .ok "https://x/L1".toList "fid1".toList } }

theorem c5_persist_precedes_job_update_witness :
    ∃ i j row row', i < j
      ∧ (analyzeAudio envJobOk orchInit).2.get? i = some (.saveLog row)
      ∧ row.sessionId = envJobOk.sessionId ∧ row.audioLink = []
      ∧ (analyzeAudio envJobOk orchInit).2.get? j = some (.updateLog row')
      ∧ row'.sessionId = envJobOk.sessionId ∧ row'.audioLink ≠ []
      ∧ (∀ k r', (analyzeAudio envJobOk orchInit).2.get? k = some (.updateLog r') → k = j) :=
  c5_persist_precedes_job_update envJobOk orchInit gSample none true "pcm".toList
    "https://x/L1".toList "fid1".toList rfl rfl rfl rfl rfl rfl rfl
    (by simp [mkCorrectionField, cleanAiText, flattenForTts, splitOnSub.eq_def,
          startsWithSub, trimWs, collapseWs, isJsWs, isMarkupChar, List.intercalate,
          partDelimiter])

/-- C2 counterexample: the claim "at most one audio source is audibly playing
at every reachable state, system-wide" is false.  From the idle state, play a
model asset (WebAudio source starts), then use the vocabulary-list
pronunciation button (`playNativeTts`, Dashboard.tsx lines 462-468, invoked
at line 1248): it cancels only the native utterance and starts a new one
without stopping the WebAudio source, so both sound at once. -/
theorem c2_counterexample :
    (runOps envFetch [SysOp.play "hi".toList "model-S1".toList (some "url1".toList),
        SysOp.nativeTts "w".toList] initPlayState).activeSource = true
    ∧ (runOps envFetch [SysOp.play "hi".toList "model-S1".toList (some "url1".toList),
        SysOp.nativeTts "w".toList] initPlayState).nativeSpeaking = true := by
  simp [runOps, applyOp, playHQA, playNativeTts, stopAllAudio, initPlayState, envFetch,
    flattenForTts, splitOnSub.eq_def, startsWithSub, trimWs, isJsWs, List.intercalate,
    lookupA, insertA, ttsIdIs, qId, correctionId, modelLit, alModelLit, containsSub]

/-- C2 (corrected): toggle-to-stop holds — calling `playHighQualityAudio`
with the id of the currently active source stops everything and activates
nothing — and every completed `playHighQualityAudio` call leaves at most one
source active (it begins with `stopAllAudio` and starts at most one source);
but `playNativeTts` does not stop an active WebAudio source
(`c2_counterexample`), so the system-wide invariant fails. -/
theorem c2_toggle_and_single_source_per_play (env : PlayEnv) (text id : Str)
    (driveUrl : Option Str) (s : PlayState) :
    (∀ st, s.ttsState = some st → st.1 = id →
      playHQA env text id driveUrl s = (stopAllAudio s, [])
      ∧ (stopAllAudio s).activeSource = false
      ∧ (stopAllAudio s).nativeSpeaking = false
      ∧ (stopAllAudio s).ttsState = none)
    ∧ atMostOnePlaying (playHQA env text id driveUrl s).1
    ∧ atMostOnePlaying (stopAllAudio s) := by
  refine ⟨?_, ?_, by simp [atMostOnePlaying, stopAllAudio]⟩
  · intro st hst hid
    have htog : ttsIdIs s.ttsState id = true := by
      rw [hst]; simp [ttsIdIs, hid]
    unfold playHQA
    simp [htog, stopAllAudio]
  · unfold playHQA atMostOnePlaying
    repeat' split
    all_goals dsimp only
    all_goals try split_ifs
    all_goals simp [stopAllAudio]

/-- A state in which the `correction` source is currently active. -/
def sCorrectionActive : PlayState :=
  { cache := [], ttsState := some ("correction".toList, TtsStatus.loading),
    activeSource := false, nativeSpeaking := false, marker := none }

theorem c2_toggle_and_single_source_per_play_witness :
    (playHQA envNoNet "hi".toList "correction".toList none sCorrectionActive
        = (stopAllAudio sCorrectionActive, [])
      ∧ (stopAllAudio sCorrectionActive).activeSource = false
      ∧ (stopAllAudio sCorrectionActive).nativeSpeaking = false
      ∧ (stopAllAudio sCorrectionActive).ttsState = none)
    ∧ atMostOnePlaying (playHQA envNoNet "hi".toList "correction".toList none
        sCorrectionActive).1
    ∧ atMostOnePlaying (stopAllAudio sCorrectionActive) :=
  ⟨(c2_toggle_and_single_source_per_play envNoNet "hi".toList "correction".toList none
      sCorrectionActive).1 ("correction".toList, TtsStatus.loading) rfl rfl,
   (c2_toggle_and_single_source_per_play envNoNet "hi".toList "correction".toList none
      sCorrectionActive).2.1,
   (c2_toggle_and_single_source_per_play envNoNet "hi".toList "correction".toList none
      sCorrectionActive).2.2⟩

/-!
## Claim C1: interleaved playback and the synthesis backend
-/

/-- The two interleaved invocations both carry text `t`, id `i`, no asset
reference. -/
def argsOf (t i : Str) (x : PlayTask) : Prop :=
  x.text = t ∧ x.id = i ∧ x.driveUrl = none

/-- Invariant for two same-id invocations racing from an idle state with no
cache entry and no synthesis job in flight: `x` is the (potential)
synthesizer, `y` the other invocation.  Whenever `y` has not started, the
live status carries id `i`, so `y`'s first segment is the line-376
toggle-stop.  The backend call counter is 0 before `x` enters `synthWait`
and exactly 1 from then on. -/
def sideInv (t i : Str) (x y : PlayTask) (s : MState) : Prop :=
  argsOf t i x ∧ argsOf t i y ∧ s.ctxSuspended = false ∧ s.play.marker = none ∧
  ((x.pc = TaskPc.start ∧ x.captured = none ∧ y.pc = TaskPc.start ∧ y.captured = none
     ∧ s.play.ttsState = none
     ∧ (lookupA (flattenForTts t) s.play.cache).isSome = false
     ∧ s.synthCalls = 0)
   ∨ ((x.pc = TaskPc.synthWait ∨ x.pc = TaskPc.playDecoded) ∧ s.synthCalls = 1
       ∧ ((y.pc = TaskPc.start ∧ y.captured = none
             ∧ s.play.ttsState = some (i, TtsStatus.loading))
          ∨ y.pc = TaskPc.done))
   ∨ (x.pc = TaskPc.done ∧ s.synthCalls = 1
       ∧ ((y.pc = TaskPc.start ∧ y.captured = none
             ∧ (∃ st, s.play.ttsState = some (i, st)))
          ∨ y.pc = TaskPc.done)))

theorem sideInv_step_x (env : PlayEnv) (t i pcm : Str) (x y : PlayTask) (s : MState)
    (hclean : flattenForTts t ≠ []) (hq : i ≠ qId)
    (hsy : env.synthResult = some pcm)
    (h : sideInv t i x y s) :
    sideInv t i (stepPlay env s x).2 y (stepPlay env s x).1 := by
  obtain ⟨hx, hy, hctx, hmark, hcase⟩ := h
  obtain ⟨hxt, hxi, hxu⟩ := hx
  rcases hcase with ⟨hxpc, hxcap, hypc, hycap, htts, hmiss, hcalls⟩ |
    ⟨hxpc, hcalls, hyc⟩ | ⟨hxpc, hcalls, hyc⟩
  · -- x runs its first segment and issues the backend call
    have hstep : stepPlay env s x
        = ({ s with
             play := { s.play with
               activeSource := false
               nativeSpeaking := false
               ttsState := some (i, TtsStatus.loading) }
             synthCalls := s.synthCalls + 1 },
           { x with captured := some none, pc := TaskPc.synthWait }) := by
      unfold stepPlay afterResumeStep stopAllAudio
      simp [hxpc, hxcap, htts, hxt, hxi, hxu, hq, hclean, hmiss, hmark, hctx, ttsIdIs]
    rw [hstep]
    refine ⟨⟨hxt, hxi, hxu⟩, hy, hctx, hmark,
      Or.inr (Or.inl ⟨Or.inl rfl, by simp [hcalls], ?_⟩)⟩
    exact Or.inl ⟨hypc, hycap, rfl⟩
  · -- x is at a synthesis suspension point
    rcases hxpc with hxpc | hxpc
    · -- synthWait → cache the result, decode
      have hstep : stepPlay env s x
          = ({ s with
               play := { s.play with
                 cache := insertA (flattenForTts t) pcm s.play.cache } },
             { x with pc := TaskPc.playDecoded }) := by
        unfold stepPlay
        simp [hxpc, hsy, hxt, hclean]
      rw [hstep]
      exact ⟨⟨hxt, hxi, hxu⟩, hy, hctx, hmark,
        Or.inr (Or.inl ⟨Or.inr rfl, hcalls, hyc⟩)⟩
    · -- playDecoded → set status playing, start the source, finish
      have hstep : stepPlay env s x
          = ({ s with
               play := { s.play with
                 ttsState := some (i, TtsStatus.playing)
                 activeSource := true } },
             { x with pc := TaskPc.done }) := by
        unfold stepPlay
        simp [hxpc, hxi]
      rw [hstep]
      refine ⟨⟨hxt, hxi, hxu⟩, hy, hctx, hmark, Or.inr (Or.inr ⟨rfl, hcalls, ?_⟩)⟩
      rcases hyc with ⟨hypc, hycap, _⟩ | hyd
      · exact Or.inl ⟨hypc, hycap, TtsStatus.playing, rfl⟩
      · exact Or.inr hyd
  · -- x already finished: stepping it is a no-op
    have hstep : stepPlay env s x = (s, x) := by
      unfold stepPlay
      simp [hxpc]
    rw [hstep]
    exact ⟨⟨hxt, hxi, hxu⟩, hy, hctx, hmark, Or.inr (Or.inr ⟨hxpc, hcalls, hyc⟩)⟩

theorem sideInv_step_y (env : PlayEnv) (t i pcm : Str) (x y : PlayTask) (s : MState)
    (hclean : flattenForTts t ≠ []) (hq : i ≠ qId)
    (hsy : env.synthResult = some pcm)
    (h : sideInv t i x y s) :
    sideInv t i x (stepPlay env s y).2 (stepPlay env s y).1
    ∨ sideInv t i (stepPlay env s y).2 x (stepPlay env s y).1 := by
  obtain ⟨hx, hy, hctx, hmark, hcase⟩ := h
  obtain ⟨hyt, hyi, hyu⟩ := hy
  rcases hcase with ⟨hxpc, hxcap, hypc, hycap, htts, hmiss, hcalls⟩ |
    ⟨hxpc, hcalls, hyc⟩ | ⟨hxpc, hcalls, hyc⟩
  · -- both fresh: y becomes the synthesizer (swapped orientation)
    right
    have hstep : stepPlay env s y
        = ({ s with
             play := { s.play with
               activeSource := false
               nativeSpeaking := false
               ttsState := some (i, TtsStatus.loading) }
             synthCalls := s.synthCalls + 1 },
           { y with captured := some none, pc := TaskPc.synthWait }) := by
      unfold stepPlay afterResumeStep stopAllAudio
      simp [hypc, hycap, htts, hyt, hyi, hyu, hq, hclean, hmiss, hmark, hctx, ttsIdIs]
    rw [hstep]
    refine ⟨⟨hyt, hyi, hyu⟩, hx, hctx, hmark,
      Or.inr (Or.inl ⟨Or.inl rfl, by simp [hcalls], ?_⟩)⟩
    exact Or.inl ⟨hxpc, hxcap, rfl⟩
  · -- x synthesizing: y either toggles (if not started) or is done
    left
    rcases hyc with ⟨hypc, hycap, htts⟩ | hyd
    · have hstep : stepPlay env s y
          = ({ s with
               play := { s.play with
                 activeSource := false
                 nativeSpeaking := false
                 ttsState := none } },
             { y with
               captured := some (some (i, TtsStatus.loading))
               pc := TaskPc.done }) := by
        unfold stepPlay stopAllAudio
        simp [hypc, hycap, htts, hyi, ttsIdIs]
      rw [hstep]
      exact ⟨hx, ⟨hyt, hyi, hyu⟩, hctx, hmark,
        Or.inr (Or.inl ⟨hxpc, hcalls, Or.inr rfl⟩)⟩
    · have hstep : stepPlay env s y = (s, y) := by
        unfold stepPlay
        simp [hyd]
      rw [hstep]
      exact ⟨hx, ⟨hyt, hyi, hyu⟩, hctx, hmark,
        Or.inr (Or.inl ⟨hxpc, hcalls, Or.inr hyd⟩)⟩
  · -- x finished: y toggles or is done
    left
    rcases hyc with ⟨hypc, hycap, st, htts⟩ | hyd
    · have hstep : stepPlay env s y
          = ({ s with
               play := { s.play with
                 activeSource := false
                 nativeSpeaking := false
                 ttsState := none } },
             { y with captured := some (some (i, st)), pc := TaskPc.done }) := by
        unfold stepPlay stopAllAudio
        simp [hypc, hycap, htts, hyi, ttsIdIs]
      rw [hstep]
      exact ⟨hx, ⟨hyt, hyi, hyu⟩, hctx, hmark,
        Or.inr (Or.inr ⟨hxpc, hcalls, Or.inr rfl⟩)⟩
    · have hstep : stepPlay env s y = (s, y) := by
        unfold stepPlay
        simp [hyd]
      rw [hstep]
      exact ⟨hx, ⟨hyt, hyi, hyu⟩, hctx, hmark,
        Or.inr (Or.inr ⟨hxpc, hcalls, Or.inr hyd⟩)⟩

theorem invC1_step (env : PlayEnv) (t i pcm : Str) (c : TwoCfg) (flag : Bool)
    (hclean : flattenForTts t ≠ []) (hq : i ≠ qId)
    (hsy : env.synthResult = some pcm)
    (h : sideInv t i c.a c.b c.s ∨ sideInv t i c.b c.a c.s) :
    sideInv t i (stepCfg env c flag).a (stepCfg env c flag).b (stepCfg env c flag).s
    ∨ sideInv t i (stepCfg env c flag).b (stepCfg env c flag).a (stepCfg env c flag).s := by
  cases flag with
  | false =>
    have hcfg : stepCfg env c false
        = { c with s := (stepPlay env c.s c.b).1, b := (stepPlay env c.s c.b).2 } := rfl
    rw [hcfg]
    rcases h with h | h
    · rcases sideInv_step_y env t i pcm c.a c.b c.s hclean hq hsy h with h' | h'
      · exact Or.inl h'
      · exact Or.inr h'
    · exact Or.inr (sideInv_step_x env t i pcm c.b c.a c.s hclean hq hsy h)
  | true =>
    have hcfg : stepCfg env c true
        = { c with s := (stepPlay env c.s c.a).1, a := (stepPlay env c.s c.a).2 } := rfl
    rw [hcfg]
    rcases h with h | h
    · exact Or.inl (sideInv_step_x env t i pcm c.a c.b c.s hclean hq hsy h)
    · rcases sideInv_step_y env t i pcm c.b c.a c.s hclean hq hsy h with h' | h'
      · exact Or.inr h'
      · exact Or.inl h'

theorem invC1_run (env : PlayEnv) (t i pcm : Str) (sched : List Bool) (c : TwoCfg)
    (hclean : flattenForTts t ≠ []) (hq : i ≠ qId)
    (hsy : env.synthResult = some pcm)
    (h : sideInv t i c.a c.b c.s ∨ sideInv t i c.b c.a c.s) :
    sideInv t i (runCfg env sched c).a (runCfg env sched c).b (runCfg env sched c).s
    ∨ sideInv t i (runCfg env sched c).b (runCfg env sched c).a (runCfg env sched c).s := by
  induction sched generalizing c with
  | nil => exact h
  | cons f rest ih =>
    exact ih (stepCfg env c f) (invC1_step env t i pcm c f hclean hq hsy h)

/-- The starting configuration for two interleaved `playHighQualityAudio`
invocations with the same text and playback id, from an idle audio state. -/
def c1Cfg (t i : Str) (cache0 : List (Str × Str)) : TwoCfg :=
  { s := { play := { cache := cache0, ttsState := none, activeSource := false,
                     nativeSpeaking := false, marker := none },
           ctxSuspended := false, synthCalls := 0 },
    a := mkTask t i none, b := mkTask t i none }

/-- C1 (corrected, amended part): two interleaved `playHighQualityAudio`
invocations with the *same playback id* for text `t`, with no cache entry for
`t`'s key, no synthesis job in flight and a running AudioContext, cause at
most one synthesis-backend call under every interleaving — exactly one once
both invocations have finished.  The second call is stopped by the line-376
toggle-to-stop check on the loading status, not by the in-flight marker.  -/
theorem c1_same_id_exactly_one_synthesis (env : PlayEnv) (t i pcm : Str)
    (cache0 : List (Str × Str)) (sched : List Bool)
    (hclean : flattenForTts t ≠ []) (hq : i ≠ qId)
    (hmiss : (lookupA (flattenForTts t) cache0).isSome = false)
    (hsy : env.synthResult = some pcm) :
    (runCfg env sched (c1Cfg t i cache0)).s.synthCalls ≤ 1
    ∧ ((runCfg env sched (c1Cfg t i cache0)).a.pc = TaskPc.done →
       (runCfg env sched (c1Cfg t i cache0)).b.pc = TaskPc.done →
       (runCfg env sched (c1Cfg t i cache0)).s.synthCalls = 1) := by
  have h0 : sideInv t i (c1Cfg t i cache0).a (c1Cfg t i cache0).b (c1Cfg t i cache0).s :=
    ⟨⟨rfl, rfl, rfl⟩, ⟨rfl, rfl, rfl⟩, rfl, rfl,
     Or.inl ⟨rfl, rfl, rfl, rfl, rfl, hmiss, rfl⟩⟩
  have hinv := invC1_run env t i pcm sched (c1Cfg t i cache0) hclean hq hsy (Or.inl h0)
  constructor
  · rcases hinv with h | h <;> obtain ⟨-, -, -, -, hc⟩ := h <;>
      rcases hc with ⟨-, -, -, -, -, -, hc0⟩ | ⟨-, hc1, -⟩ | ⟨-, hc1, -⟩ <;> omega
  · intro hda hdb
    rcases hinv with h | h <;> obtain ⟨-, -, -, -, hc⟩ := h <;>
      rcases hc with ⟨hp, -, -, -, -, -, -⟩ | ⟨hp, hc1, -⟩ | ⟨-, hc1, -⟩
    · rw [hda] at hp; exact absurd hp (by simp)
    · rcases hp with hp | hp <;> (rw [hda] at hp; exact absurd hp (by simp))
    · exact hc1
    · rw [hdb] at hp; exact absurd hp (by simp)
    · rcases hp with hp | hp <;> (rw [hdb] at hp; exact absurd hp (by simp))
    · exact hc1

/-- An environment whose synthesis backend succeeds. -/
def envSynthOk : PlayEnv :=
  { extractFid := fun _ => none, fetchResult := none, decodeOk := false,
    synthResult := some "pcm".toList }

/-- Two interleaved invocations for the same uncached text with distinct
playback ids, from the idle state. -/
def c1TwoIds : TwoCfg :=
  { s := { play := initPlayState, ctxSuspended := false, synthCalls := 0 },
    a := mkTask "hi".toList "correction".toList none,
    b := mkTask "hi".toList "model-S1".toList none }

/-- C1 counterexample: the claim is false as stated.  With no SpeechCache
entry for the text and no job in flight, two interleaved
`playHighQualityAudio` calls for the same text with *different* playback ids
(`correction` and `model-S1`, neither with an asset reference) each reach the
line-437 on-demand synthesis: the backend is called twice.  The in-flight
marker is never consulted because `syncingCorrectionSessionId` is only set by
`processOnlyModelMedia`, and the line-407 polling guard applies only to the
`correction` id while a job holds the marker. -/
theorem c1_counterexample :
    lookupA (flattenForTts "hi".toList)
      (c1TwoIds.s.play.cache) = none
    ∧ (runCfg envSynthOk [true, false, true, true, false, false] c1TwoIds).s.synthCalls = 2
    ∧ (runCfg envSynthOk [true, false, true, true, false, false] c1TwoIds).a.pc = TaskPc.done
    ∧ (runCfg envSynthOk [true, false, true, true, false, false] c1TwoIds).b.pc
        = TaskPc.done := by
  refine ⟨rfl, ?_, ?_, ?_⟩ <;>
    simp [runCfg, stepCfg, stepPlay, afterResumeStep, mkTask, initPlayState, stopAllAudio,
      ttsIdIs, lookupA, insertA, qId, correctionId, envSynthOk, c1TwoIds,
      flattenForTts, splitOnSub.eq_def, startsWithSub, trimWs, isJsWs, List.intercalate,
      partDelimiter]

theorem c1_same_id_exactly_one_synthesis_witness :
    (runCfg envSynthOk [true, false, true, true]
        (c1Cfg "hi".toList "correction".toList [])).s.synthCalls ≤ 1
    ∧ ((runCfg envSynthOk [true, false, true, true]
          (c1Cfg "hi".toList "correction".toList [])).a.pc = TaskPc.done →
       (runCfg envSynthOk [true, false, true, true]
          (c1Cfg "hi".toList "correction".toList [])).b.pc = TaskPc.done →
       (runCfg envSynthOk [true, false, true, true]
          (c1Cfg "hi".toList "correction".toList [])).s.synthCalls = 1) :=
  c1_same_id_exactly_one_synthesis envSynthOk "hi".toList "correction".toList
    "pcm".toList [] [true, false, true, true]
    (by simp [flattenForTts, splitOnSub.eq_def, startsWithSub, trimWs, isJsWs,
          List.intercalate])
    (by decide) rfl rfl
